import Mathlib

/-!
# Verification of `deploy_tileset`
(`src/scripts/http_host/http_host_lib/deploy_tileset.py`)

Shallow embedding of the tileset version synchronizer.  The Python function
iterates the fixed area list `["planet", "monaco"]` (single-quoted in the Python source); for each area it

* performs an HTTP GET of the remote version file and calls
  `r.raise_for_status()` (a transport error or non-success response raises,
  propagating out of `deploy_tileset`);
* strips the response text to obtain `remote_version`;
* reads the local version file `/data/ofm/config/deployed_tiles_{area}.txt`
  raw (no stripping), `None` if absent;
* if `remote_version` is empty: deletes an existing local file and sets
  `need_nginx_sync`, else continues to the next area;
* if `/mnt/ofm/{area}-{remote_version}/metadata.json` does not exist:
  deletes an existing local file and sets `need_nginx_sync`, else continues;
* if `remote_version != local_version_start`: overwrites the local file with
  `remote_version` and sets `need_nginx_sync`.

External effects are modelled by `ExtState`: `source` is the HTTP lookup
(`Except Unit String`, error = transport failure or non-2xx status), `avail`
is the existence check of the version-derived `metadata.json` marker.  The
local version store (one file per area) is `Store : Area → Option String`.
A raised Python exception is the `.error` constructor of the result of the run,
carrying the store contents at the moment of the raise (files already
written or deleted persist; nothing is rolled back).
-/

namespace DeployTileset

/-- An area name, e.g. `"planet"` or `"monaco"`. -/
abbrev Area := String

/-- The fixed area list iterated by `deploy_tileset`
(`for area in [...]`, the list of planet and monaco). -/
def areas : List Area := ["planet", "monaco"]

/-- The local version store: contents of
`/data/ofm/config/deployed_tiles_{area}.txt` per area, `none` when the file
does not exist. -/
abbrev Store := Area → Option String

/-- External collaborators of one reconciliation run:
`source area` models `requests.get(...)` followed by `r.raise_for_status()`
(`.ok text` = the response body on a 2xx response, `.error ()` = transport
error or non-success status, i.e. a raised exception);
`avail area v` models the existence check of
`/mnt/ofm/\x7barea\x7d-\x7bv\x7d/metadata.json` (`mnt_file.exists()`). -/
structure ExtState where
  source : Area → Except Unit String
  avail : Area → String → Bool

/-- Model of Python `str.strip()`: remove leading and trailing whitespace.
(Defined over the character list so the kernel can evaluate it; the built-in
`String.trim` is the same operation but is stuck under kernel reduction.) -/
def strip (s : String) : String :=
  ⟨((s.data.dropWhile Char.isWhitespace).reverse.dropWhile Char.isWhitespace).reverse⟩

/-- Deletion (`Path.unlink`) of the local version file of the area. -/
def storeDelete (store : Store) (area : Area) : Store :=
  fun a => if a = area then none else store a

/-- Overwrite (`open` with mode w, then `fp.write(v)`): the local version
file of the area now holds exactly `v`. -/
def storeWrite (store : Store) (area : Area) (v : String) : Store :=
  fun a => if a = area then some v else store a

/-- Per-area, per-run result, a specification-level annotation of the three
effectful shapes of a loop iteration: `adopted v` when the local file is
written with `v`, `retired` when it is deleted, `unchanged` otherwise. -/
inductive Outcome where
  | adopted (v : String)
  | retired
  | unchanged
deriving DecidableEq, Repr

/-- One iteration of the `for area in [...]` loop of `deploy_tileset`,
returning the updated store, the contribution of the iteration to
`need_nginx_sync`, and the derived `Outcome`.  `.error ()` is the exception
raised by `r.raise_for_status()` (or the transport error of `requests.get`),
which occurs before any store access of the iteration. -/
def processArea (ext : ExtState) (store : Store) (area : Area) :
    Except Unit (Store × Bool × Outcome) :=
  match ext.source area with
  | .error e => .error e
  | .ok text =>
    -- remote_version = r.text.strip()
    let remote_version := strip text
    -- local_version_start = None if the file is absent, else its raw content
    let local_version_start := store area
    if remote_version = "" then
      -- `if not remote_version:` branch
      match local_version_start with
      | some _ => .ok (storeDelete store area, true, .retired)
      | none => .ok (store, false, .unchanged)
    else if ext.avail area remote_version = false then
      -- `if not mnt_file.exists():` branch
      match local_version_start with
      | some _ => .ok (storeDelete store area, true, .retired)
      | none => .ok (store, false, .unchanged)
    else if local_version_start ≠ some remote_version then
      -- `if remote_version != local_version_start:` branch
      .ok (storeWrite store area remote_version, true, .adopted remote_version)
    else
      .ok (store, false, .unchanged)

/-- The loop of `deploy_tileset` over a list of areas, threading the store
and the `need_nginx_sync` accumulator.  A raised exception (`.error`)
carries the store at the moment of the raise: writes and deletes of
earlier iterations persist, later areas are never reached. -/
def runAreas (ext : ExtState) : List Area → Store → Bool →
    Except Store (Store × Bool)
  | [], store, flag => .ok (store, flag)
  | area :: rest, store, flag =>
    match processArea ext store area with
    | .error _ => .error store
    | .ok (s, c, _) => runAreas ext rest s (flag || c)

/-- `deploy_tileset()`: reconcile every area of `areas` starting from the
given local store, returning the final store and `need_nginx_sync`, or
`.error s` when an iteration raised with the store at state `s`. -/
def deploy_tileset (ext : ExtState) (store : Store) :
    Except Store (Store × Bool) :=
  runAreas ext areas store false

/-- The store contents observable after a run, whether it returned normally
or raised. -/
def resStore : Except Store (Store × Bool) → Store
  | .error s => s
  | .ok (s, _) => s

/-- Whether the run raised an exception instead of returning
`need_nginx_sync`. -/
def raised : Except Store (Store × Bool) → Bool
  | .error _ => true
  | .ok _ => false

/-- Crash model of the record write of lines 39-40,
`with open(local_version_file, ...) as fp: fp.write(remote_version)`:
the sequence of file contents observable at the step boundaries of the
write.  Opening with write mode w creates or truncates the file in place
(content becomes the empty string); the subsequent `write` fills in the new
version.  There is no temporary file and no rename. -/
def writeTrace (old : Option String) (new : String) : List (Option String) :=
  [old, some "", some new]

/-! ## Concrete instances used by witnesses and counterexamples -/

/-- The everywhere-empty local store: no area has a version file. -/
def store0 : Store := fun _ => none

/-- External state where every lookup answers `"v1\n"` and every artifact
is available. -/
def extAdopt : ExtState :=
  { source := fun _ => .ok "v1\n", avail := fun _ _ => true }

/-- The store after both areas adopt `"v1"` starting from `store0`. -/
def storeAdopted : Store :=
  storeWrite (storeWrite store0 "planet" "v1") "monaco" "v1"

/-- External state where the lookup for `"planet"` fails and every other
lookup answers `"v1"`, with every artifact available. -/
def extPlanetDown : ExtState :=
  { source := fun a => if a = "planet" then .error () else .ok "v1",
    avail := fun _ _ => true }

/-- External state where the lookup for `"planet"` answers `"v1"`, every
other lookup fails, and every artifact is available. -/
def extMonacoDown : ExtState :=
  { source := fun a => if a = "planet" then .ok "v1" else .error (),
    avail := fun _ _ => true }

/-- External state where the lookup for `"planet"` answers `"v4"`, every
other lookup answers the empty body, and no artifact is available. -/
def extV4Unavail : ExtState :=
  { source := fun a => if a = "planet" then .ok "v4" else .ok "",
    avail := fun _ _ => false }

/-- Local store holding `"v3"` for `"planet"` and nothing else. -/
def storeV3 : Store := fun a => if a = "planet" then some "v3" else none

/-- External state where every lookup answers `"v9"` and no artifact is
available. -/
def extV9Unavail : ExtState :=
  { source := fun _ => .ok "v9", avail := fun _ _ => false }

/-- External state where every lookup answers whitespace only and every
artifact is available. -/
def extBlank : ExtState :=
  { source := fun _ => .ok " \n", avail := fun _ _ => true }

/-- Local store holding `"v5"` for `"monaco"` and nothing else. -/
def storeV5 : Store := fun a => if a = "monaco" then some "v5" else none

/-- External state where every lookup answers `"v1"`; artifacts are not
available. -/
def extV1Unavail : ExtState :=
  { source := fun _ => .ok "v1", avail := fun _ _ => false }

/-- External state where every lookup answers `"v1"` and every artifact is
available. -/
def extV1Avail : ExtState :=
  { source := fun _ => .ok "v1", avail := fun _ _ => true }

/-- Local store holding `"v1\n"` (trailing newline) for `"planet"` and
nothing else. -/
def storeV1nl : Store := fun a => if a = "planet" then some "v1\n" else none

/-! ## Characterization of one loop iteration -/

/-- A successful loop iteration has exactly three effectful shapes:
a no-op, a deletion of an existing record, or a write of the stripped
remote version after the availability check succeeded. -/
theorem pa_cases {ext : ExtState} {store : Store} {area : Area}
    {s' : Store} {c : Bool} {o : Outcome}
    (h : processArea ext store area = .ok (s', c, o)) :
    (s' = store ∧ c = false ∧ o = .unchanged) ∨
    (s' = storeDelete store area ∧ c = true ∧ o = .retired ∧
      ∃ v, store area = some v) ∨
    (∃ v, s' = storeWrite store area v ∧ c = true ∧ o = .adopted v ∧
      v ≠ "" ∧ ext.avail area v = true ∧ store area ≠ some v ∧
      ∃ t, ext.source area = .ok t ∧ strip t = v) := by
  unfold processArea at h
  cases hs : ext.source area with
  | error e => rw [hs] at h; exact absurd h (by simp)
  | ok text =>
    rw [hs] at h
    simp only at h
    split at h
    · -- remote version empty
      split at h
      · next v hv =>
        simp only [Except.ok.injEq, Prod.mk.injEq] at h
        exact Or.inr (Or.inl ⟨h.1.symm, h.2.1.symm, h.2.2.symm, v, hv⟩)
      · next hv =>
        simp only [Except.ok.injEq, Prod.mk.injEq] at h
        exact Or.inl ⟨h.1.symm, h.2.1.symm, h.2.2.symm⟩
    · split at h
      · -- artifact unavailable
        split at h
        · next v hv =>
          simp only [Except.ok.injEq, Prod.mk.injEq] at h
          exact Or.inr (Or.inl ⟨h.1.symm, h.2.1.symm, h.2.2.symm, v, hv⟩)
        · next hv =>
          simp only [Except.ok.injEq, Prod.mk.injEq] at h
          exact Or.inl ⟨h.1.symm, h.2.1.symm, h.2.2.symm⟩
      · split at h
        · -- versions differ: write
          next hempty hav hne =>
          simp only [Except.ok.injEq, Prod.mk.injEq] at h
          refine Or.inr (Or.inr ⟨strip text, h.1.symm, h.2.1.symm, h.2.2.symm,
            hempty, ?_, hne, text, rfl, rfl⟩)
          cases hb : ext.avail area (strip text) with
          | false => exact absurd hb hav
          | true => rfl
        · next hne =>
          simp only [Except.ok.injEq, Prod.mk.injEq] at h
          exact Or.inl ⟨h.1.symm, h.2.1.symm, h.2.2.symm⟩

/-- A loop iteration never touches the local version file of another area. -/
theorem pa_other {ext : ExtState} {store : Store} {area : Area}
    {s' : Store} {c : Bool} {o : Outcome}
    (h : processArea ext store area = .ok (s', c, o))
    {a : Area} (ha : a ≠ area) : s' a = store a := by
  rcases pa_cases h with ⟨rfl, -, -⟩ | ⟨rfl, -⟩ | ⟨v, rfl, -⟩ <;>
    simp [storeDelete, storeWrite, ha]

/-- An iteration that set `need_nginx_sync` really changed the record of its area. -/
theorem pa_changed {ext : ExtState} {store : Store} {area : Area}
    {s' : Store} {o : Outcome}
    (h : processArea ext store area = .ok (s', true, o)) :
    s' area ≠ store area := by
  rcases pa_cases h with ⟨-, hc, -⟩ | ⟨rfl, -, -, v, hv⟩ |
    ⟨v, rfl, -, -, -, -, hne, -⟩
  · cases hc
  · simp [storeDelete, hv]
  · simp only [storeWrite, if_pos rfl]
    exact fun hh => hne hh.symm

/-- An iteration that did not set `need_nginx_sync` performed no write and
no delete. -/
theorem pa_unch {ext : ExtState} {store : Store} {area : Area}
    {s' : Store} {o : Outcome}
    (h : processArea ext store area = .ok (s', false, o)) :
    s' = store := by
  rcases pa_cases h with ⟨rfl, -, -⟩ | ⟨-, hc, -⟩ | ⟨v, -, hc, -⟩
  · rfl
  · cases hc
  · cases hc

/-- Stability: after a successful iteration for `area`, a second iteration
for `area` against any store that agrees with the result at `area` (and the
same external state) is a pure no-op. -/
theorem pa_stable {ext : ExtState} {store : Store} {area : Area}
    {s' τ : Store} {c : Bool} {o : Outcome}
    (h : processArea ext store area = .ok (s', c, o))
    (hτ : τ area = s' area) :
    processArea ext τ area = .ok (τ, false, .unchanged) := by
  unfold processArea at h ⊢
  cases hs : ext.source area with
  | error e => rw [hs] at h; exact absurd h (by simp)
  | ok text =>
    rw [hs] at h
    simp only at h ⊢
    split at h
    · next hempty =>
      rw [if_pos hempty]
      split at h
      · next v hv =>
        simp only [Except.ok.injEq, Prod.mk.injEq] at h
        rw [hτ, ← h.1, storeDelete, if_pos rfl]
      · next hv =>
        simp only [Except.ok.injEq, Prod.mk.injEq] at h
        rw [hτ, ← h.1, hv]
    · next hempty =>
      rw [if_neg hempty]
      split at h
      · next hav =>
        rw [if_pos hav]
        split at h
        · next v hv =>
          simp only [Except.ok.injEq, Prod.mk.injEq] at h
          rw [hτ, ← h.1, storeDelete, if_pos rfl]
        · next hv =>
          simp only [Except.ok.injEq, Prod.mk.injEq] at h
          rw [hτ, ← h.1, hv]
      · next hav =>
        rw [if_neg hav]
        split at h
        · next hne =>
          simp only [Except.ok.injEq, Prod.mk.injEq] at h
          rw [if_neg]
          rw [hτ, ← h.1, storeWrite, if_pos rfl]
          simp
        · next hne =>
          simp only [Except.ok.injEq, Prod.mk.injEq] at h
          rw [if_neg]
          rw [hτ, ← h.1]
          exact hne

/-! ## Run-level lemmas -/

/-- The loop never touches an area outside the list it iterates, whether it
returns or raises. -/
theorem run_other (ext : ExtState) (l : List Area) (store : Store)
    (flag : Bool) {a : Area} (ha : a ∉ l) :
    resStore (runAreas ext l store flag) a = store a := by
  induction l generalizing store flag with
  | nil => rfl
  | cons area rest ih =>
    rw [List.mem_cons] at ha
    push_neg at ha
    have ha' := ha
    simp only [runAreas]
    cases hp : processArea ext store area with
    | error e => rfl
    | ok res =>
      obtain ⟨s, c, o⟩ := res
      rw [ih s (flag || c) ha'.2]
      exact pa_other hp ha'.1

/-- Availability invariant of the loop: any area whose record the run
created or updated holds a version whose availability check returned
`true`. -/
theorem run_avail (ext : ExtState) (l : List Area) (store : Store)
    (flag : Bool) {a : Area} {v : String}
    (h : resStore (runAreas ext l store flag) a = some v) :
    store a = some v ∨ ext.avail a v = true := by
  induction l generalizing store flag with
  | nil => exact Or.inl h
  | cons area rest ih =>
    simp only [runAreas] at h
    cases hp : processArea ext store area with
    | error e => rw [hp] at h; exact Or.inl h
    | ok res =>
      obtain ⟨s, c, o⟩ := res
      rw [hp] at h
      rcases ih s (flag || c) h with hs | hav
      · rcases pa_cases hp with ⟨rfl, -, -⟩ | ⟨rfl, -⟩ |
          ⟨w, rfl, -, -, -, hwav, -⟩
        · exact Or.inl hs
        · by_cases haa : a = area
          · subst haa; simp [storeDelete] at hs
          · rw [storeDelete, if_neg haa] at hs; exact Or.inl hs
        · by_cases haa : a = area
          · subst haa
            rw [storeWrite, if_pos rfl] at hs
            cases hs
            exact Or.inr hwav
          · rw [storeWrite, if_neg haa] at hs; exact Or.inl hs
      · exact Or.inr hav

/-- Flag characterization of the loop: on a normal return, the accumulated
flag is true exactly when it started true or some record differs between
the initial and final stores. -/
theorem run_flag (ext : ExtState) {l : List Area} {store : Store}
    {flag : Bool} {s' : Store} {f' : Bool} (hnd : l.Nodup)
    (h : runAreas ext l store flag = .ok (s', f')) :
    f' = true ↔ flag = true ∨ ∃ a, s' a ≠ store a := by
  induction l generalizing store flag with
  | nil =>
    simp only [runAreas, Except.ok.injEq, Prod.mk.injEq] at h
    obtain ⟨rfl, rfl⟩ := h
    simp
  | cons area rest ih =>
    obtain ⟨hnd1, hnd2⟩ := List.nodup_cons.mp hnd
    simp only [runAreas] at h
    cases hp : processArea ext store area with
    | error e => rw [hp] at h; exact absurd h (by simp)
    | ok res =>
      obtain ⟨s, c, o⟩ := res
      rw [hp] at h
      replace h : runAreas ext rest s (flag || c) = .ok (s', f') := h
      have hs'area : s' area = s area := by
        have hro := run_other ext rest s (flag || c) hnd1
        rwa [h] at hro
      constructor
      · intro hf
        rcases (ih hnd2 h).mp hf with hfc | ⟨a, ha⟩
        · rcases Bool.or_eq_true_iff.mp hfc with hflag | hc
          · exact Or.inl hflag
          · subst hc
            exact Or.inr ⟨area, by rw [hs'area]; exact pa_changed hp⟩
        · by_cases haa : a = area
          · subst haa; exact absurd hs'area ha
          · exact Or.inr ⟨a, by rw [pa_other hp haa] at ha; exact ha⟩
      · intro hr
        apply (ih hnd2 h).mpr
        rcases hr with hflag | ⟨a, ha⟩
        · exact Or.inl (by rw [hflag, Bool.true_or])
        · by_cases hsa : s' a = s a
          · rw [hsa] at ha
            cases c with
            | false => exact absurd (congrFun (pa_unch hp) a) ha
            | true => exact Or.inl (Bool.or_true flag)
          · exact Or.inr ⟨a, hsa⟩

/-- Idempotence of the loop: a second pass from the final store of a
successful pass changes nothing, reports `false`, and every iterated area
is a pure no-op. -/
theorem run_idem (ext : ExtState) {l : List Area} {store : Store}
    {flag : Bool} {s1 : Store} {f1 : Bool} (hnd : l.Nodup)
    (h : runAreas ext l store flag = .ok (s1, f1)) :
    runAreas ext l s1 false = .ok (s1, false) ∧
      ∀ a ∈ l, processArea ext s1 a = .ok (s1, false, .unchanged) := by
  induction l generalizing store flag with
  | nil =>
    simp only [runAreas, Except.ok.injEq, Prod.mk.injEq] at h
    obtain ⟨rfl, -⟩ := h
    exact ⟨rfl, by simp⟩
  | cons area rest ih =>
    obtain ⟨hnd1, hnd2⟩ := List.nodup_cons.mp hnd
    simp only [runAreas] at h
    cases hp : processArea ext store area with
    | error e => rw [hp] at h; exact absurd h (by simp)
    | ok res =>
      obtain ⟨s, c, o⟩ := res
      rw [hp] at h
      replace h : runAreas ext rest s (flag || c) = .ok (s1, f1) := h
      obtain ⟨ihrun, ihall⟩ := ih hnd2 h
      have hs1area : s1 area = s area := by
        have hro := run_other ext rest s (flag || c) hnd1
        rwa [h] at hro
      have hstab := pa_stable hp hs1area
      refine ⟨?_, ?_⟩
      · simp only [runAreas, hstab]
        exact ihrun
      · intro a ha
        rcases List.mem_cons.mp ha with rfl | hmem
        · exact hstab
        · exact ihall a hmem

/-- A failed lookup raises before any store access of the iteration. -/
theorem pa_error {ext : ExtState} {area : Area} {e : Unit}
    (hs : ext.source area = .error e) (store : Store) :
    processArea ext store area = .error e := by
  unfold processArea
  rw [hs]

/-! ## Claim C1 -/

/-- C1 counterexample.  With the lookup for `"planet"` failing and
`"monaco"` having remote version `"v1"` with an available artifact, the run
raises instead of returning an aggregate flag, and `"monaco"` is never
reconciled (its record stays absent although the claim requires it to be
adopted and the run to report its changed flag). -/
theorem C1_counterexample :
    raised (deploy_tileset extPlanetDown store0) = true ∧
      resStore (deploy_tileset extPlanetDown store0) "monaco" = none ∧
      extPlanetDown.source "monaco" = .ok "v1" ∧
      extPlanetDown.avail "monaco" "v1" = true :=
  ⟨rfl, rfl, rfl, rfl⟩

/-- C1 (amended): a VersionSource lookup failure for any area aborts the
entire run — the exception propagates, no aggregate changed flag is
returned, and `"monaco"` (the area listed after `"planet"`, or the failing
area itself) is left unreconciled. -/
theorem C1_lookup_failure_aborts_run (ext : ExtState) (store : Store)
    (h : ext.source "planet" = .error () ∨ ext.source "monaco" = .error ()) :
    raised (deploy_tileset ext store) = true ∧
      resStore (deploy_tileset ext store) "monaco" = store "monaco" := by
  rcases h with hp | hm
  · unfold deploy_tileset areas
    simp only [runAreas, pa_error hp store]
    exact ⟨rfl, rfl⟩
  · unfold deploy_tileset areas
    cases hpl : processArea ext store "planet" with
    | error e =>
      simp only [runAreas, hpl]
      exact ⟨rfl, rfl⟩
    | ok res =>
      obtain ⟨s, c, o⟩ := res
      simp only [runAreas, hpl, pa_error hm s]
      exact ⟨rfl, pa_other hpl (by decide)⟩

/-- C1 witness: instantiation at `extPlanetDown` and the empty store. -/
theorem C1_witness :
    extPlanetDown.source "planet" = .error () ∧
      raised (deploy_tileset extPlanetDown store0) = true ∧
      resStore (deploy_tileset extPlanetDown store0) "monaco" =
        store0 "monaco" :=
  ⟨rfl, C1_lookup_failure_aborts_run extPlanetDown store0 (Or.inl rfl)⟩

/-! ## Claim C9 -/

/-- C9: a failed lookup propagates out of `deploy_tileset`.  If the lookup
for `"planet"` (the first area) fails, the run raises with the store fully
untouched; if `"planet"` succeeds and the lookup for `"monaco"` (the second
area) fails, the run raises with exactly the store produced by the
`"planet"` iteration — earlier changes persist, and `"monaco"` is
untouched. -/
theorem C9_exception_propagation (ext : ExtState) (store : Store) :
    (ext.source "planet" = .error () →
      deploy_tileset ext store = .error store) ∧
    (∀ s c o, processArea ext store "planet" = .ok (s, c, o) →
      ext.source "monaco" = .error () →
      deploy_tileset ext store = .error s ∧ s "monaco" = store "monaco") := by
  constructor
  · intro hp
    unfold deploy_tileset areas
    simp only [runAreas, pa_error hp store]
  · intro s c o hpl hm
    have hrun : deploy_tileset ext store = .error s := by
      unfold deploy_tileset areas
      simp only [runAreas, hpl, pa_error hm s]
    exact ⟨hrun, pa_other hpl (by decide)⟩

/-- C9 witness: `"planet"` adopts `"v1"`, then the `"monaco"` lookup fails;
the run raises carrying the planet write, monaco untouched. -/
theorem C9_witness :
    processArea extMonacoDown store0 "planet" =
        .ok (storeWrite store0 "planet" "v1", true, .adopted "v1") ∧
      extMonacoDown.source "monaco" = .error () ∧
      deploy_tileset extMonacoDown store0 =
        .error (storeWrite store0 "planet" "v1") ∧
      storeWrite store0 "planet" "v1" "monaco" = store0 "monaco" :=
  ⟨rfl, rfl,
    (C9_exception_propagation extMonacoDown store0).2
      (storeWrite store0 "planet" "v1") true (.adopted "v1") rfl rfl⟩

/-! ## Claim C2 -/

/-- C2 counterexample.  Area `"planet"` holds local record `"v3"`, the
remote version is `"v4"`, and the artifact for `"v4"` is not available: the
run deletes the `"v3"` record (final record `none`), contradicting the
claim that the record is left untouched. -/
theorem C2_counterexample :
    storeV3 "planet" = some "v3" ∧
      extV4Unavail.source "planet" = .ok "v4" ∧
      extV4Unavail.avail "planet" "v4" = false ∧
      raised (deploy_tileset extV4Unavail storeV3) = false ∧
      resStore (deploy_tileset extV4Unavail storeV3) "planet" = none :=
  ⟨rfl, rfl, rfl, rfl, rfl⟩

/-- C2 (amended): for every area with an existing local record `v1`, when
the remote version is a different non-empty `v2` whose artifact is
not available, the iteration deletes the local record and marks the area
changed (outcome retired) — it does not keep `v1`. -/
theorem C2_unavailable_candidate_deletes (ext : ExtState) (store : Store)
    (area : Area) (t v1 v2 : String)
    (hs : ext.source area = .ok t) (ht : strip t = v2) (hv : v2 ≠ "")
    (hne : v2 ≠ v1) (hav : ext.avail area v2 = false)
    (hl : store area = some v1) :
    processArea ext store area =
      .ok (storeDelete store area, true, .retired) := by
  subst ht
  unfold processArea
  rw [hs]
  simp only
  rw [if_neg hv, if_pos hav, hl]

/-- C2 witness: the amended statement at `"planet"`, record `"v3"`, remote
`"v4"`, artifact unavailable. -/
theorem C2_witness :
    extV4Unavail.source "planet" = .ok "v4" ∧
      storeV3 "planet" = some "v3" ∧
      processArea extV4Unavail storeV3 "planet" =
        .ok (storeDelete storeV3 "planet", true, .retired) :=
  ⟨rfl, rfl,
    C2_unavailable_candidate_deletes extV4Unavail storeV3 "planet" "v4" "v3"
      "v4" rfl rfl (by decide) (by decide) rfl rfl⟩

/-! ## Claim C3 -/

/-- C3: for every area whose remote version is non-empty but whose artifact
is not available, an existing local record is deleted and the area marked
changed (outcome retired); with no local record the iteration writes and
deletes nothing (outcome unchanged). -/
theorem C3_unavailable_remote (ext : ExtState) (store : Store)
    (area : Area) (t v : String)
    (hs : ext.source area = .ok t) (ht : strip t = v) (hv : v ≠ "")
    (hav : ext.avail area v = false) :
    (∀ v1, store area = some v1 →
      processArea ext store area =
        .ok (storeDelete store area, true, .retired)) ∧
    (store area = none →
      processArea ext store area = .ok (store, false, .unchanged)) := by
  subst ht
  constructor
  · intro v1 hl
    unfold processArea
    rw [hs]
    simp only
    rw [if_neg hv, if_pos hav, hl]
  · intro hl
    unfold processArea
    rw [hs]
    simp only
    rw [if_neg hv, if_pos hav, hl]

/-- C3 witness: remote `"v9"` unavailable; `"planet"` (record `"v3"`) is
retired, `"monaco"` (no record) is a no-op. -/
theorem C3_witness :
    processArea extV9Unavail storeV3 "planet" =
        .ok (storeDelete storeV3 "planet", true, .retired) ∧
      processArea extV9Unavail storeV3 "monaco" =
        .ok (storeV3, false, .unchanged) :=
  ⟨(C3_unavailable_remote extV9Unavail storeV3 "planet" "v9" "v9" rfl rfl
      (by decide) rfl).1 "v3" rfl,
    (C3_unavailable_remote extV9Unavail storeV3 "monaco" "v9" "v9" rfl rfl
      (by decide) rfl).2 rfl⟩

/-! ## Claim C4 -/

/-- C4: a record observable after a run with a value it did not already
hold before the run was confirmed available by the availability check of
that same run — the record is never advanced ahead of on-disk
availability.  Holds whether the run returned or raised. -/
theorem C4_availability_invariant (ext : ExtState) (store : Store)
    {a : Area} {v : String}
    (h1 : resStore (deploy_tileset ext store) a = some v)
    (h2 : store a ≠ some v) :
    ext.avail a v = true := by
  unfold deploy_tileset at h1
  rcases run_avail ext areas store false h1 with hsv | hav
  · exact absurd hsv h2
  · exact hav

/-- C4 witness: `"planet"` adopts `"v1"` from the empty store, and indeed
its artifact was available. -/
theorem C4_witness :
    resStore (deploy_tileset extAdopt store0) "planet" = some "v1" ∧
      store0 "planet" ≠ some "v1" ∧
      extAdopt.avail "planet" "v1" = true :=
  ⟨rfl, by decide, C4_availability_invariant extAdopt store0 rfl (by decide)⟩

/-! ## Claim C5 -/

/-- C5: on a normal return, `need_nginx_sync` is true exactly when some
local version record of some area was created, updated, or deleted during the
run. -/
theorem C5_flag_iff_change (ext : ExtState) (store : Store) (s' : Store)
    (flag : Bool) (h : deploy_tileset ext store = .ok (s', flag)) :
    flag = true ↔ ∃ a, s' a ≠ store a := by
  unfold deploy_tileset at h
  have hr := run_flag ext (by decide : areas.Nodup) h
  simpa using hr

/-- C5 witness: the run from the empty store adopts `"v1"` for both areas,
returns `true`, and indeed some record changed. -/
theorem C5_witness :
    deploy_tileset extAdopt store0 = .ok (storeAdopted, true) ∧
      (true = true ↔ ∃ a, storeAdopted a ≠ store0 a) :=
  ⟨rfl, C5_flag_iff_change extAdopt store0 storeAdopted true rfl⟩

/-! ## Claim C6 -/

/-- C6: idempotence.  If a run returns normally, a second run against its
final store with unchanged external state returns the same store with
`need_nginx_sync = false`, and every area of the second run is a pure
no-op with outcome unchanged. -/
theorem C6_idempotent (ext : ExtState) (store : Store) (s1 : Store)
    (f1 : Bool) (h : deploy_tileset ext store = .ok (s1, f1)) :
    deploy_tileset ext s1 = .ok (s1, false) ∧
      ∀ a ∈ areas, processArea ext s1 a = .ok (s1, false, .unchanged) := by
  unfold deploy_tileset at h ⊢
  exact run_idem ext (by decide) h

/-- C6 witness: after both areas adopt `"v1"`, the second run is a no-op
returning `false`, each area unchanged. -/
theorem C6_witness :
    deploy_tileset extAdopt store0 = .ok (storeAdopted, true) ∧
      deploy_tileset extAdopt storeAdopted = .ok (storeAdopted, false) ∧
      processArea extAdopt storeAdopted "planet" =
        .ok (storeAdopted, false, .unchanged) :=
  ⟨rfl, (C6_idempotent extAdopt store0 storeAdopted true rfl).1,
    (C6_idempotent extAdopt store0 storeAdopted true rfl).2 "planet"
      (by decide)⟩

/-! ## Claim C7 -/

/-- C7: for every area whose remote version strips to the empty string, an
existing local record is deleted and the area marked changed; with no
record the iteration is a no-op; in both cases the record of the area is absent
afterwards, so no record is ever created. -/
theorem C7_empty_remote (ext : ExtState) (store : Store) (area : Area)
    (t : String) (hs : ext.source area = .ok t) (ht : strip t = "") :
    (∀ v1, store area = some v1 →
      processArea ext store area =
        .ok (storeDelete store area, true, .retired)) ∧
    (store area = none →
      processArea ext store area = .ok (store, false, .unchanged)) ∧
    (∀ s' c o, processArea ext store area = .ok (s', c, o) →
      s' area = none) := by
  have hsome : ∀ v1, store area = some v1 →
      processArea ext store area =
        .ok (storeDelete store area, true, .retired) := by
    intro v1 hl
    unfold processArea
    rw [hs]
    simp only
    rw [if_pos ht, hl]
  have hnone : store area = none →
      processArea ext store area = .ok (store, false, .unchanged) := by
    intro hl
    unfold processArea
    rw [hs]
    simp only
    rw [if_pos ht, hl]
  refine ⟨hsome, hnone, ?_⟩
  intro s' c o h
  cases hl : store area with
  | none =>
    have h2 := h.symm.trans (hnone hl)
    simp only [Except.ok.injEq, Prod.mk.injEq] at h2
    rw [h2.1, hl]
  | some v1 =>
    have h2 := h.symm.trans (hsome v1 hl)
    simp only [Except.ok.injEq, Prod.mk.injEq] at h2
    rw [h2.1, storeDelete, if_pos rfl]

/-- C7 witness: whitespace-only remote body; `"monaco"` (record `"v5"`) is
retired, `"planet"` (no record) is a no-op. -/
theorem C7_witness :
    strip " \n" = "" ∧
      processArea extBlank storeV5 "monaco" =
        .ok (storeDelete storeV5 "monaco", true, .retired) ∧
      processArea extBlank storeV5 "planet" =
        .ok (storeV5, false, .unchanged) :=
  ⟨rfl,
    (C7_empty_remote extBlank storeV5 "monaco" " \n" rfl rfl).1 "v5" rfl,
    (C7_empty_remote extBlank storeV5 "planet" " \n" rfl rfl).2.1 rfl⟩

/-! ## Claim C8 -/

/-- C8 counterexample.  Writing `"v4"` over an existing record `"v3"`
passes through the truncated state: an empty file is observable mid-write,
which is neither the old value `"v3"` nor the new value `"v4"`. -/
theorem C8_counterexample :
    some "" ∈ writeTrace (some "v3") "v4" ∧
      some "" ≠ some "v3" ∧ some "" ≠ (some "v4" : Option String) := by
  decide

/-- C8 (amended): the record write is performed by in-place truncate then
write, not write-to-temp-then-rename; whenever the old content is not
itself empty and the new version is non-empty, a crash between the
truncation and the write exposes a content (the empty file) that is
neither the old nor the new value. -/
theorem C8_write_not_atomic (old : Option String) (new : String)
    (h1 : old ≠ some "") (h2 : new ≠ "") :
    some "" ∈ writeTrace old new ∧ some "" ≠ old ∧ some "" ≠ some new :=
  ⟨by simp [writeTrace], fun hh => h1 hh.symm,
    fun hh => h2 (Option.some.inj hh).symm⟩

/-- C8 witness: creating a fresh record `"v4"` (no previous file) still
passes through the observable empty state. -/
theorem C8_witness :
    (none : Option String) ≠ some "" ∧ ("v4" : String) ≠ "" ∧
      (some "" ∈ writeTrace none "v4" ∧ some "" ≠ (none : Option String) ∧
        some "" ≠ some "v4") :=
  ⟨by decide, by decide, C8_write_not_atomic none "v4" (by decide) (by decide)⟩

/-! ## Claim C10 -/

/-- C10 counterexample.  `"planet"` holds local content `"v1\n"`, the
remote token strips to `"v1"`, but the artifact for `"v1"` is not
available: the iteration deletes the record (outcome retired) instead of
rewriting it with the stripped token, so the unconditional
"rewrites the record" fails. -/
theorem C10_counterexample :
    strip "v1\n" = "v1" ∧
      storeV1nl "planet" = some "v1\n" ∧
      extV1Unavail.avail "planet" "v1" = false ∧
      processArea extV1Unavail storeV1nl "planet" =
        .ok (storeDelete storeV1nl "planet", true, .retired) ∧
      storeDelete storeV1nl "planet" "planet" = none :=
  ⟨rfl, rfl, rfl, rfl, rfl⟩

/-- C10 (amended): the remote token is stripped, the local file content is
compared to it byte-for-byte without stripping; for every area whose local
content equals the non-empty stripped remote token except for surrounding
whitespace, provided the artifact for the stripped token is available, the
iteration treats the versions as different, rewrites the record with the
stripped token, and marks the area changed. -/
theorem C10_whitespace_mismatch (ext : ExtState) (store : Store)
    (area : Area) (t v l : String)
    (hs : ext.source area = .ok t) (ht : strip t = v) (hv : v ≠ "")
    (hav : ext.avail area v = true) (hl : store area = some l)
    (hlt : strip l = v) (hne : l ≠ v) :
    processArea ext store area =
      .ok (storeWrite store area v, true, .adopted v) := by
  subst ht
  have hcond : store area ≠ some (strip t) := by
    rw [hl]
    intro hcontra
    exact hne (Option.some.inj hcontra)
  unfold processArea
  rw [hs]
  simp only
  rw [if_neg hv, if_neg (by rw [hav]; simp), if_pos hcond]

/-- C10 witness: local content `"v1\n"`, remote token `"v1"`, artifact
available: the record is rewritten with `"v1"` and the area marked
changed. -/
theorem C10_witness :
    strip "v1\n" = "v1" ∧
      storeV1nl "planet" = some "v1\n" ∧
      extV1Avail.avail "planet" "v1" = true ∧
      processArea extV1Avail storeV1nl "planet" =
        .ok (storeWrite storeV1nl "planet" "v1", true, .adopted "v1") :=
  ⟨rfl, rfl, rfl,
    C10_whitespace_mismatch extV1Avail storeV1nl "planet" "v1" "v1" "v1\n"
      rfl rfl (by decide) rfl rfl rfl (by decide)⟩

end DeployTileset
